import Mathlib

/-!
Shallow embedding of the cut/selection engine of the HighRateAnalysis
repository (src/mod/track_cuts.py, src/src/dut_analysis.py,
src/src/batch_analysis.py).

Arrays are modelled as Lean lists.  The base class `DUTCut`
(mod/dut_cuts.py) is not among the sources; its operations (`register`,
`combined`, `ev2trk`, `trk2pl`, `make_ev`, the normalisation performed by
the base `__call__`) are modelled from the specification and are marked
`Modelled from the spec:` in their doc comments.  Everything else is a
direct translation of the Python sources.
-/

/-- A single named cut: unique name, boolean mask over its declared index
space, priority (report-order sort key) and description. -/
structure Cut where
  name : String
  mask : List Bool
  priority : Nat
  description : String
deriving DecidableEq

/-- A cut registry: the ordered collection of named cuts
(`CutRegistry` of the spec; `self.Cuts` of `DUTCut`). -/
structure Registry where
  entries : List Cut
deriving DecidableEq

/-- The empty registry. -/
def Registry.empty : Registry := ⟨[]⟩

/-- Modelled from the spec: `register(name, mask, priority, description)`
stores a new cut under `name`, replacing the array under the same name if
one is registered already (`mod/dut_cuts.py` is not in the sources). -/
def register (r : Registry) (c : Cut) : Registry :=
  if r.entries.any fun x => x.name == c.name then
    ⟨r.entries.map fun x => if x.name == c.name then c else x⟩
  else ⟨r.entries ++ [c]⟩

/-- Register a whole list of cuts, first to last. -/
def registerAll (r : Registry) (cs : List Cut) : Registry :=
  cs.foldl register r

/-- Modelled from the spec: `combined()` is the element-wise AND of every
registered cut's mask, starting from an all-true mask of the registry's
native length `n` (`mod/dut_cuts.py` is not in the sources). -/
def combined (r : Registry) (n : Nat) : List Bool :=
  r.entries.foldr (fun c acc => List.zipWith and c.mask acc) (List.replicate n true)

/-- The shape-mismatch error of the spec's error taxonomy. -/
inductive ShapeError where
  | shapeError : ShapeError
deriving DecidableEq

/-- Modelled from the spec: registering a cut validates the mask length
against the declared space's size and fails with `ShapeError` on a
mismatch, before any mutation of the registry (`mod/dut_cuts.py` is not in
the sources).  The second component is the registry as observed after the
call: unchanged when the error is raised. -/
def registerRun (r : Registry) (n : Nat) (c : Cut) : Registry × Option ShapeError :=
  if c.mask.length = n then (register r c, none)
  else (r, some ShapeError.shapeError)

/-- The value of a cut argument as it reaches the selection entry point:
either the `Ellipsis` identity sentinel or a boolean mask. -/
inductive CutArg where
  | ellipsis : CutArg
  | mask : List Bool → CutArg
deriving DecidableEq

/-- numpy boolean-mask indexing `data[m]`: keep the entries at the
positions where the mask is true. -/
def boolIndex {α : Type} (data : List α) (m : List Bool) : List α :=
  (data.zip m).filterMap fun p => if p.2 then some p.1 else none

/-- numpy indexing `data[cut]` by a cut value: `data[...]` is `data`
itself, a boolean mask selects positions. -/
def indexBy {α : Type} (data : List α) : CutArg → List α
  | CutArg.ellipsis => data
  | CutArg.mask m => boolIndex data m

/-- The analysis context (`DUTAnalysis`, src/src/dut_analysis.py lines
46-48): `N` is the native Cluster-space length
(`Data['Clusters']['X'].size`), `NEvents` the number of events
(`F['Tracks']['NTracks'].size`), `NTracks` the number of reconstructed
tracks (`F['Tracks']['Size'].size`).  `evOfTrack` gives each track's event
index (monotone, spec section 3); `trkOfCluster pl` gives, per plane, each
cluster's track index; `dutPlane` is the DUT plane used when no plane is
requested. -/
structure Ana where
  NEvents : Nat
  NTracks : Nat
  N : Nat
  dutPlane : Nat
  evOfTrack : List Nat
  trkOfCluster : Nat → List Nat

/-- Modelled from the spec: `ev2trk` broadcasts an Event-space array down
the one-to-many event-to-track relation, repeating each event's value once
per track belonging to that event, in track order (`mod/dut_cuts.py` is
not in the sources). -/
def ev2trk {α : Type} [Inhabited α] (ana : Ana) (data : List α) : List α :=
  ana.evOfTrack.map fun e => data.getD e default

/-- Modelled from the spec: `trk2pl` projects a Track-space array to the
subsequence of tracks that have a matched cluster on the requested plane,
in cluster order for that plane; a missing plane argument means the DUT's
own plane (`mod/dut_cuts.py` is not in the sources). -/
def trk2pl {α : Type} [Inhabited α] (ana : Ana) (data : List α) (pl : Option Nat) : List α :=
  (ana.trkOfCluster (pl.getD ana.dutPlane)).map fun t => data.getD t default

/-- Modelled from the spec: the cut normalisation done by the base
`DUTCut.__call__` when no data array is passed (steps 1-2 of the Selection
Apply contract, spec section 4.4): the `None` "no filtering requested"
sentinel becomes the combined mask, any other cut value is returned
unchanged (`mod/dut_cuts.py` is not in the sources). -/
def superCall (r : Registry) (n : Nat) (cut : Option CutArg) : CutArg :=
  match cut with
  | none => CutArg.mask (combined r n)
  | some c => c

/-- The possible results of the selection entry point: a bare cut value
when no data array is passed, otherwise a filtered data array. -/
inductive ApplyResult (α : Type) where
  | cutVal : CutArg → ApplyResult α
  | dataVal : List α → ApplyResult α
deriving DecidableEq

namespace TrackCut

/-- Translation of `TrackCut.__call__` (src/mod/track_cuts.py lines 14-22): normalise the
cut through the base class, return it when no data is given; broadcast an
event-length array to Track space via `ev2trk` before indexing; project a
track array to plane space via `trk2pl` when the cut is a Cluster-space
mask; otherwise index directly.  The registry's native length for the
combined mask is the track count. -/
def call {α : Type} [Inhabited α] (ana : Ana) (r : Registry) (cut : Option CutArg)
    (data : Option (List α)) (pl : Option Nat) : ApplyResult α :=
  let c := superCall r ana.NTracks cut
  match data with
  | none => ApplyResult.cutVal c
  | some d =>
    if d.length = ana.NEvents then ApplyResult.dataVal (indexBy (ev2trk ana d) c)
    else
      match c with
      | CutArg.ellipsis => ApplyResult.dataVal d
      | CutArg.mask m =>
        if m.length = ana.N then ApplyResult.dataVal (boolIndex (trk2pl ana d pl) m)
        else ApplyResult.dataVal (boolIndex d m)

/-- The `make_*` cut generators used by `TrackCut.make`.  They live in
`mod/dut_cuts.py` and `mod/reference.py` (not in the sources) and are
modelled from the spec as pure functions of the redo flag: with
`redo=False` the cached mask is returned, and recomputation is
deterministic over the unchanged backing data. -/
structure Gen where
  trigger_phase : Bool → List Bool
  trk_residual : Bool → List Bool
  fiducial : Bool → List Bool
  start_time : Bool → List Bool
  chi2 : Bool → List Bool

/-- Translation of `TrackCut.make` (src/mod/track_cuts.py lines 24-29): register the five
track cuts with their fixed priorities and descriptions. -/
def make (g : Gen) (redo : Bool) (r : Registry) : Registry :=
  register (register (register (register (register r
    ⟨"tp", g.trigger_phase redo, 10, "trigger phase"⟩)
    ⟨"res", g.trk_residual redo, 20, "tracks with a small residual in the REF"⟩)
    ⟨"fid", g.fiducial redo, 30, "tracks in fiducial area"⟩)
    ⟨"tstart", g.start_time redo, 40, "exclude first events"⟩)
    ⟨"chi2", g.chi2 redo, 50, "small chi2"⟩

/-- Modelled from the spec: `make_ev(b, target)` constructs a boolean
array of the requested target length from the coarser-grained boolean `b`
(`mod/dut_cuts.py` is not in the sources); positions beyond `b` default to
true (no exclusion). -/
def make_ev (b : List Bool) (target : Nat) : List Bool :=
  (List.range target).map fun i => b.getD i true

/-- Translation of `TrackCut.make_trk` (src/mod/track_cuts.py lines 31-32): build a
Track-space boolean via `make_ev` with the track count as target. -/
def make_trk (ana : Ana) (trks : List Bool) : List Bool :=
  make_ev trks ana.NTracks

end TrackCut

/-- The cut argument of `DUTAnalysis.get_data` as a Python value: a bool,
`None`, or a cut value (Ellipsis or mask). -/
inductive PyCutArg where
  | pybool : Bool → PyCutArg
  | pynone : PyCutArg
  | pycut : CutArg → PyCutArg
deriving DecidableEq

/-- The backing columnar store (`self.Data`): group and optional key name
a raw column array. -/
structure DataStore where
  columns : String → Option String → List Int

namespace DUTAnalysis

/-- Translation of `DUTAnalysis.get_data` (src/src/dut_analysis.py lines 129-132): read
the raw column, return it untouched when the cut argument is a Python
bool, otherwise hand data and cut to the selection entry point
`self.Cut(cut, data, pl)`.  The DUT registry's apply follows the same
Selection Apply contract as `TrackCut.call` (spec section 4.4;
`mod/dut_cuts.py` is not in the sources). -/
def get_data (ana : Ana) (r : Registry) (store : DataStore) (grp : String)
    (key : Option String) (cut : PyCutArg) (pl : Option Nat) : ApplyResult Int :=
  let data := store.columns grp key
  match cut with
  | PyCutArg.pybool _ => ApplyResult.dataVal data
  | PyCutArg.pynone => TrackCut.call ana r none (some data) pl
  | PyCutArg.pycut c => TrackCut.call ana r (some c) (some data) pl

end DUTAnalysis

/-- A Python error that `load_file` catches: `KeyError` from a missing
group, `OSError` from a file that cannot be opened. -/
inductive PyErr where
  | keyError : PyErr
  | osError : PyErr
deriving DecidableEq

/-- An HDF5 file modelled by its set of top-level group names. -/
structure H5File where
  groups : List String
deriving DecidableEq

/-- The run environment seen by `load_file`: the outcome of
`h5py.File(self.Run.FileName, 'r')`, the DUT plane's group name
`str(self.Plane)`, and the dummy file `self.Dummy.load_file()`. -/
structure RunEnv where
  openResult : Except PyErr H5File
  planeKey : String
  dummyFile : H5File

/-- The name of the tracks group accessed by `load_file`. -/
def tracksKey : String := "Tracks"

/-- The try-block of `DUTAnalysis.load_file` (src/src/dut_analysis.py
lines 98-101): open the file, access `f['Tracks']` and `f[str(self.Plane)]`
to check the data is complete; a missing group raises `KeyError`, a
failing open raises `OSError`. -/
def tryOpen (env : RunEnv) : Except PyErr H5File :=
  match env.openResult with
  | Except.error e => Except.error e
  | Except.ok f =>
    if f.groups.contains tracksKey then
      if f.groups.contains env.planeKey then Except.ok f
      else Except.error PyErr.keyError
    else Except.error PyErr.keyError

/-- True exactly when an `Except` value is an error. -/
def exceptIsError {ε α : Type} : Except ε α → Bool
  | Except.error _ => true
  | Except.ok _ => false

/-- The file an analysis ends up with: the real data file or the dummy. -/
inductive LoadedFile where
  | real : H5File → LoadedFile
  | dummy : H5File → LoadedFile
deriving DecidableEq

/-- Translation of `DUTAnalysis.load_file` (src/src/dut_analysis.py lines 95-105): in
test mode return the dummy file directly; otherwise try the real file and
on `KeyError` or `OSError` emit a warning and fall back to the dummy file.
The second component records whether the warning was emitted. -/
def load_file (env : RunEnv) (test : Bool) : LoadedFile × Bool :=
  if test then (LoadedFile.dummy env.dummyFile, false)
  else
    match tryOpen env with
    | Except.ok f => (LoadedFile.real f, false)
    | Except.error _ => (LoadedFile.dummy env.dummyFile, true)

/-- A small concrete analysis context for witnesses: 2 events, 3 tracks
(event 0 has two tracks), cluster space of length 2 on every plane. -/
def anaW : Ana :=
  ⟨2, 3, 2, 0, [0, 0, 1], fun _ => [0, 2]⟩

/-- A concrete run environment whose data file opens but lacks the DUT
plane's group. -/
def envW : RunEnv :=
  ⟨Except.ok ⟨["Tracks"]⟩, "Plane4", ⟨["dummy"]⟩⟩

/-- C1: when the data array's length equals the number of events, the
selection entry point broadcasts the data into Track space via `ev2trk`
and then indexes it by the (normalised) cut mask. -/
theorem trackCall_event_space_broadcast {α : Type} [Inhabited α] (ana : Ana) (r : Registry)
    (cut : Option CutArg) (data : List α) (pl : Option Nat)
    (h : data.length = ana.NEvents) :
    TrackCut.call ana r cut (some data) pl
      = ApplyResult.dataVal (indexBy (ev2trk ana data) (superCall r ana.NTracks cut)) := by
  simp [TrackCut.call, h]

theorem trackCall_event_space_broadcast_witness :
    ([10, 20] : List Int).length = anaW.NEvents ∧
    TrackCut.call anaW Registry.empty (some (CutArg.mask [true, false, true]))
        (some ([10, 20] : List Int)) none
      = ApplyResult.dataVal (indexBy (ev2trk anaW [10, 20])
          (superCall Registry.empty anaW.NTracks (some (CutArg.mask [true, false, true])))) :=
  ⟨by decide,
   trackCall_event_space_broadcast anaW Registry.empty
     (some (CutArg.mask [true, false, true])) [10, 20] none (by decide)⟩

/-- C2: when the data array's length differs from the number of events,
a non-Ellipsis cut of native Cluster-space length indexes the data after
projecting it to the requested plane via `trk2pl`; in every other case the
data is indexed by the cut directly. -/
theorem trackCall_other_spaces {α : Type} [Inhabited α] (ana : Ana) (r : Registry)
    (data : List α) (pl : Option Nat) (h : data.length ≠ ana.NEvents) :
    (∀ m, m.length = ana.N →
      TrackCut.call ana r (some (CutArg.mask m)) (some data) pl
        = ApplyResult.dataVal (boolIndex (trk2pl ana data pl) m)) ∧
    TrackCut.call ana r (some CutArg.ellipsis) (some data) pl = ApplyResult.dataVal data ∧
    (∀ m, m.length ≠ ana.N →
      TrackCut.call ana r (some (CutArg.mask m)) (some data) pl
        = ApplyResult.dataVal (boolIndex data m)) :=
  ⟨fun m hm => by simp [TrackCut.call, superCall, h, hm],
   by simp [TrackCut.call, superCall, h],
   fun m hm => by simp [TrackCut.call, superCall, h, hm]⟩

theorem trackCall_other_spaces_witness :
    (([5, 6, 7] : List Int).length ≠ anaW.NEvents) ∧
    TrackCut.call anaW Registry.empty (some (CutArg.mask [true, false]))
        (some ([5, 6, 7] : List Int)) none
      = ApplyResult.dataVal (boolIndex (trk2pl anaW [5, 6, 7] none) [true, false]) ∧
    TrackCut.call anaW Registry.empty (some CutArg.ellipsis) (some ([5, 6, 7] : List Int)) none
      = ApplyResult.dataVal ([5, 6, 7] : List Int) ∧
    TrackCut.call anaW Registry.empty (some (CutArg.mask [true]))
        (some ([5, 6, 7] : List Int)) none
      = ApplyResult.dataVal (boolIndex ([5, 6, 7] : List Int) [true]) :=
  ⟨by decide,
   (trackCall_other_spaces anaW Registry.empty [5, 6, 7] none (by decide)).1
     [true, false] (by decide),
   (trackCall_other_spaces anaW Registry.empty [5, 6, 7] none (by decide)).2.1,
   (trackCall_other_spaces anaW Registry.empty [5, 6, 7] none (by decide)).2.2
     [true] (by decide)⟩

/-- C4 counterexample: applying the Ellipsis cut to an array of event
length does NOT return it unchanged — the array is broadcast to Track
space first (here `[10, 20]` becomes `[10, 10, 20]`). -/
theorem apply_ellipsis_not_identity :
    TrackCut.call anaW Registry.empty (some CutArg.ellipsis) (some ([10, 20] : List Int)) none
      ≠ ApplyResult.dataVal ([10, 20] : List Int) := by decide

/-- C4 amended: applying the Ellipsis cut returns the array unchanged
provided the array's length differs from the number of events (an array
of event length is broadcast into Track space first). -/
theorem apply_ellipsis_identity_off_event {α : Type} [Inhabited α] (ana : Ana) (r : Registry)
    (data : List α) (pl : Option Nat) (h : data.length ≠ ana.NEvents) :
    TrackCut.call ana r (some CutArg.ellipsis) (some data) pl = ApplyResult.dataVal data := by
  simp [TrackCut.call, superCall, h]

theorem apply_ellipsis_identity_off_event_witness :
    (([7, 8, 9] : List Int).length ≠ anaW.NEvents) ∧
    TrackCut.call anaW Registry.empty (some CutArg.ellipsis) (some ([7, 8, 9] : List Int)) none
      = ApplyResult.dataVal ([7, 8, 9] : List Int) :=
  ⟨by decide, apply_ellipsis_identity_off_event anaW Registry.empty [7, 8, 9] none (by decide)⟩

/-- C8: `make_trk` equals `make_ev` at target length `Ana.NTracks`, and
the constructed boolean array has the Track-space target length. -/
theorem make_trk_via_make_ev (ana : Ana) (x : List Bool) :
    TrackCut.make_trk ana x = TrackCut.make_ev x ana.NTracks ∧
    (TrackCut.make_trk ana x).length = ana.NTracks :=
  ⟨rfl, by simp [TrackCut.make_trk, TrackCut.make_ev]⟩

/-- C9: a Python-bool cut argument makes `get_data` return the full raw
column with no selection applied; only non-bool cuts (`None` or a cut
value) reach the selection entry point. -/
theorem get_data_bool_bypass (ana : Ana) (r : Registry) (store : DataStore)
    (grp : String) (key : Option String) (pl : Option Nat) :
    (∀ b, DUTAnalysis.get_data ana r store grp key (PyCutArg.pybool b) pl
        = ApplyResult.dataVal (store.columns grp key)) ∧
    (∀ c, DUTAnalysis.get_data ana r store grp key (PyCutArg.pycut c) pl
        = TrackCut.call ana r (some c) (some (store.columns grp key)) pl) ∧
    DUTAnalysis.get_data ana r store grp key PyCutArg.pynone pl
        = TrackCut.call ana r none (some (store.columns grp key)) pl :=
  ⟨fun _ => rfl, fun _ => rfl, rfl⟩

/-- C10: when the data file cannot be opened or lacks the `Tracks` group
or the DUT plane's group, `load_file` does not raise: it emits the
warning and returns the dummy file. -/
theorem load_file_falls_back_to_dummy (env : RunEnv)
    (h : exceptIsError (tryOpen env) = true) :
    load_file env false = (LoadedFile.dummy env.dummyFile, true) := by
  cases htry : tryOpen env with
  | ok f => rw [htry] at h; simp [exceptIsError] at h
  | error e => simp [load_file, htry]

theorem load_file_falls_back_to_dummy_witness :
    exceptIsError (tryOpen envW) = true ∧
    load_file envW false = (LoadedFile.dummy envW.dummyFile, true) :=
  ⟨by decide, load_file_falls_back_to_dummy envW (by decide)⟩

/-- Elementwise boolean AND is left-commutative on lists. -/
theorem zipWith_and_left_comm (a b acc : List Bool) :
    List.zipWith and a (List.zipWith and b acc) = List.zipWith and b (List.zipWith and a acc) := by
  induction a generalizing b acc with
  | nil => cases b <;> cases acc <;> rfl
  | cons x xs ih =>
    cases b with
    | nil => rfl
    | cons y ys =>
      cases acc with
      | nil => rfl
      | cons z zs =>
        have hh : (x && (y && z)) = (y && (x && z)) := by
          cases x <;> cases y <;> cases z <;> rfl
        simp [List.zipWith_cons_cons, ih, hh]

/-- The AND-reduction fold over cut entries is invariant under permutation
of the entries. -/
theorem foldr_and_perm {l1 l2 : List Cut} (h : l1.Perm l2) (b : List Bool) :
    l1.foldr (fun c acc => List.zipWith and c.mask acc) b
      = l2.foldr (fun c acc => List.zipWith and c.mask acc) b := by
  induction h generalizing b with
  | nil => rfl
  | cons x _ ih => simp [List.foldr_cons, ih]
  | swap x y l => simp [List.foldr_cons, zipWith_and_left_comm]
  | trans _ _ ih1 ih2 => exact (ih1 b).trans (ih2 b)

/-- Registering a cut whose name is not yet present appends it. -/
theorem register_fresh (r : Registry) (c : Cut)
    (h : (r.entries.any fun x => x.name == c.name) = false) :
    register r c = ⟨r.entries ++ [c]⟩ := by
  simp [register, h]

/-- Registering a list of cuts with fresh, pairwise-distinct names appends
them in order. -/
theorem registerAll_fresh (cs : List Cut) (r : Registry)
    (hfresh : ∀ c ∈ cs, (r.entries.any fun x => x.name == c.name) = false)
    (hnodup : (cs.map Cut.name).Nodup) :
    (registerAll r cs).entries = r.entries ++ cs := by
  induction cs generalizing r with
  | nil => simp [registerAll]
  | cons c rest ih =>
    have hc : (r.entries.any fun x => x.name == c.name) = false := hfresh c (by simp)
    rw [List.map_cons] at hnodup
    have hnd := List.nodup_cons.mp hnodup
    have hstep : registerAll r (c :: rest) = registerAll ⟨r.entries ++ [c]⟩ rest := by
      simp [registerAll, List.foldl_cons, register_fresh r c hc]
    have hfresh' : ∀ d ∈ rest,
        (((⟨r.entries ++ [c]⟩ : Registry)).entries.any fun x => x.name == d.name) = false := by
      intro d hd
      have h1 : (r.entries.any fun x => x.name == d.name) = false := hfresh d (by simp [hd])
      have h2 : c.name ≠ d.name := by
        intro hcd
        exact hnd.1 (hcd ▸ List.mem_map_of_mem Cut.name hd)
      simp [List.any_append, h1, h2]
    rw [hstep, ih ⟨r.entries ++ [c]⟩ hfresh' hnd.2]
    simp

/-- C3: registering the same set of (distinctly named) cuts in any order
yields an identical combined mask — the elementwise AND-reduction is
order-independent. -/
theorem combined_order_independent (cs1 cs2 : List Cut) (n : Nat)
    (hperm : cs1.Perm cs2) (hnodup : (cs1.map Cut.name).Nodup) :
    combined (registerAll Registry.empty cs1) n
      = combined (registerAll Registry.empty cs2) n := by
  have hnodup2 : (cs2.map Cut.name).Nodup := ((hperm.map Cut.name).nodup_iff).mp hnodup
  have h1 : (registerAll Registry.empty cs1).entries = cs1 := by
    simpa using registerAll_fresh cs1 Registry.empty (fun c _ => rfl) hnodup
  have h2 : (registerAll Registry.empty cs2).entries = cs2 := by
    simpa using registerAll_fresh cs2 Registry.empty (fun c _ => rfl) hnodup2
  unfold combined
  rw [h1, h2]
  exact foldr_and_perm hperm _

/-- The `tp` cut of the spec's section-8 scenario, used as witness data. -/
def cutA : Cut := ⟨"tp", [true, false, true], 10, "trigger phase"⟩

/-- The `fid` cut of the spec's section-8 scenario, used as witness data. -/
def cutB : Cut := ⟨"fid", [true, true, false], 30, "tracks in fiducial area"⟩

theorem combined_order_independent_witness :
    List.Perm [cutA, cutB] [cutB, cutA] ∧ (([cutA, cutB].map Cut.name).Nodup) ∧
    combined (registerAll Registry.empty [cutA, cutB]) 3
      = combined (registerAll Registry.empty [cutB, cutA]) 3 :=
  ⟨List.Perm.swap cutB cutA [], by decide,
   combined_order_independent [cutA, cutB] [cutB, cutA] 3
     (List.Perm.swap cutB cutA []) (by decide)⟩

/-- Replacing entries by a mask-preserving function leaves the
AND-reduction unchanged. -/
theorem foldr_mask_congr (l : List Cut) (f : Cut → Cut)
    (h : ∀ x ∈ l, (f x).mask = x.mask) (b : List Bool) :
    (l.map f).foldr (fun c acc => List.zipWith and c.mask acc) b
      = l.foldr (fun c acc => List.zipWith and c.mask acc) b := by
  induction l with
  | nil => rfl
  | cons x xs ih =>
    simp [List.map_cons, List.foldr_cons, h x (by simp),
      ih fun y hy => h y (by simp [hy])]

/-- C5: re-registering an existing cut under the same name with the same
mask but a different priority (and description) leaves the combined mask
unchanged — priority never influences the combined boolean result. -/
theorem combined_priority_independent (r : Registry) (n p : Nat) (nm desc : String)
    (m : List Bool)
    (hmem : (r.entries.any fun x => x.name == nm) = true)
    (hmask : ∀ x ∈ r.entries, x.name = nm → x.mask = m) :
    combined (register r ⟨nm, m, p, desc⟩) n = combined r n := by
  have hcond : (r.entries.any fun x => x.name == (⟨nm, m, p, desc⟩ : Cut).name) = true := hmem
  have hreg : register r ⟨nm, m, p, desc⟩
      = ⟨r.entries.map fun x => if x.name == (⟨nm, m, p, desc⟩ : Cut).name
          then (⟨nm, m, p, desc⟩ : Cut) else x⟩ := by
    rw [register, if_pos hcond]
  have hf : ∀ x ∈ r.entries,
      ((fun x => if x.name == (⟨nm, m, p, desc⟩ : Cut).name
        then (⟨nm, m, p, desc⟩ : Cut) else x) x).mask = x.mask := by
    intro x hx
    by_cases hxn : (x.name == nm) = true
    · simp only [if_pos hxn]
      exact (hmask x hx (beq_iff_eq.mp hxn)).symm
    · simp only [if_neg hxn]
  rw [hreg]
  unfold combined
  exact foldr_mask_congr r.entries _ hf _

/-- A concrete registry for witnesses: a fiducial and a trigger-phase
cut. -/
def regW : Registry :=
  ⟨[⟨"fid", [true, false], 30, "tracks in fiducial area"⟩,
    ⟨"tp", [true, true], 10, "trigger phase"⟩]⟩

theorem combined_priority_independent_witness :
    ((regW.entries.any fun x => x.name == "fid") = true) ∧
    (∀ x ∈ regW.entries, x.name = "fid" → x.mask = [true, false]) ∧
    combined (register regW ⟨"fid", [true, false], 10, "fid cut"⟩) 2 = combined regW 2 :=
  ⟨by decide, by decide,
   combined_priority_independent regW 2 10 "fid" "fid cut" [true, false]
     (by decide) (by decide)⟩

/-- C7: registering a cut whose mask length does not match the declared
space's size fails with `ShapeError` and leaves the registry's previously
registered entries unchanged. -/
theorem register_shape_mismatch (r : Registry) (n : Nat) (c : Cut)
    (h : c.mask.length ≠ n) :
    registerRun r n c = (r, some ShapeError.shapeError) := by
  simp [registerRun, h]

theorem register_shape_mismatch_witness :
    ((⟨"tp", [true, false], 10, "trigger phase"⟩ : Cut).mask.length ≠ 3) ∧
    registerRun regW 3 ⟨"tp", [true, false], 10, "trigger phase"⟩
      = (regW, some ShapeError.shapeError) :=
  ⟨by decide,
   register_shape_mismatch regW 3 ⟨"tp", [true, false], 10, "trigger phase"⟩ (by decide)⟩

/-- A map that fixes every element of a list leaves it unchanged. -/
theorem map_fix_of_mem {α : Type} (f : α → α) (l : List α) (h : ∀ x ∈ l, f x = x) :
    l.map f = l := by
  induction l with
  | nil => rfl
  | cons x xs ih => simp [h x (by simp), ih fun y hy => h y (by simp [hy])]

/-- The registry holds `c` under its name: the name is present and every
entry carrying it is exactly `c`. -/
def ownsCut (r : Registry) (c : Cut) : Prop :=
  ((r.entries.any fun x => x.name == c.name) = true) ∧
  ∀ x ∈ r.entries, x.name = c.name → x = c

/-- After registering `c`, the registry owns `c`. -/
theorem ownsCut_register_self (r : Registry) (c : Cut) : ownsCut (register r c) c := by
  unfold ownsCut register
  by_cases h : (r.entries.any fun x => x.name == c.name) = true
  · rw [if_pos h]
    constructor
    · rcases List.any_eq_true.mp h with ⟨x, hx, hxn⟩
      apply List.any_eq_true.mpr
      exact ⟨c, List.mem_map.mpr ⟨x, hx, by simp [hxn]⟩, by simp⟩
    · intro y hy hyn
      rcases List.mem_map.mp hy with ⟨x, hx, hfx⟩
      by_cases hxn : (x.name == c.name) = true
      · rw [if_pos hxn] at hfx
        exact hfx.symm
      · rw [if_neg hxn] at hfx
        subst hfx
        exact absurd (beq_iff_eq.mpr hyn) hxn
  · rw [if_neg h]
    constructor
    · exact List.any_eq_true.mpr ⟨c, by simp, by simp⟩
    · intro y hy hyn
      rcases List.mem_append.mp hy with hy1 | hy2
      · exact absurd
          (List.any_eq_true.mpr
            ⟨y, hy1, (beq_iff_eq.mpr hyn : (y.name == c.name) = true)⟩) h
      · simpa using hy2

/-- Registering a differently named cut preserves ownership. -/
theorem ownsCut_register_other (r : Registry) (c d : Cut) (hne : d.name ≠ c.name)
    (hd : ownsCut r d) : ownsCut (register r c) d := by
  obtain ⟨hmem, hall⟩ := hd
  unfold ownsCut register
  by_cases h : (r.entries.any fun x => x.name == c.name) = true
  · rw [if_pos h]
    constructor
    · rcases List.any_eq_true.mp hmem with ⟨x, hx, hxn⟩
      apply List.any_eq_true.mpr
      refine ⟨x, List.mem_map.mpr ⟨x, hx, if_neg ?_⟩, hxn⟩
      intro hxc
      exact hne ((beq_iff_eq.mp hxn) ▸ (beq_iff_eq.mp hxc))
    · intro y hy hyn
      rcases List.mem_map.mp hy with ⟨x, hx, hfx⟩
      by_cases hxn : (x.name == c.name) = true
      · rw [if_pos hxn] at hfx
        subst hfx
        exact absurd hyn hne.symm
      · rw [if_neg hxn] at hfx
        subst hfx
        exact hall x hx hyn
  · rw [if_neg h]
    constructor
    · rcases List.any_eq_true.mp hmem with ⟨x, hx, hxn⟩
      exact List.any_eq_true.mpr ⟨x, List.mem_append_left _ hx, hxn⟩
    · intro y hy hyn
      rcases List.mem_append.mp hy with hy1 | hy2
      · exact hall y hy1 hyn
      · have hyc : y = c := by simpa using hy2
        subst hyc
        exact absurd hyn hne.symm

/-- Registering a cut the registry already owns is a no-op. -/
theorem register_owned_eq (r : Registry) (c : Cut) (h : ownsCut r c) :
    register r c = r := by
  obtain ⟨hmem, hall⟩ := h
  have hfix : ∀ x ∈ r.entries, (if x.name == c.name then c else x) = x := by
    intro x hx
    by_cases hxn : (x.name == c.name) = true
    · rw [if_pos hxn]
      exact (hall x hx (beq_iff_eq.mp hxn)).symm
    · rw [if_neg hxn]
  calc register r c = ⟨r.entries.map fun x => if x.name == c.name then c else x⟩ := by
        rw [register, if_pos hmem]
    _ = ⟨r.entries⟩ := by rw [map_fix_of_mem _ _ hfix]
    _ = r := rfl

/-- C6: `TrackCut.make` with `redo=False` is idempotent — a second call
leaves the registry's named cut entries (names, masks, priorities,
descriptions) unchanged. -/
theorem make_idempotent (g : TrackCut.Gen) (r : Registry) :
    TrackCut.make g false (TrackCut.make g false r) = TrackCut.make g false r := by
  have h1 : ownsCut (TrackCut.make g false r)
      ⟨"tp", g.trigger_phase false, 10, "trigger phase"⟩ := by
    unfold TrackCut.make
    apply ownsCut_register_other _ _ _ (by simp)
    apply ownsCut_register_other _ _ _ (by simp)
    apply ownsCut_register_other _ _ _ (by simp)
    apply ownsCut_register_other _ _ _ (by simp)
    exact ownsCut_register_self _ _
  have h2 : ownsCut (TrackCut.make g false r)
      ⟨"res", g.trk_residual false, 20, "tracks with a small residual in the REF"⟩ := by
    unfold TrackCut.make
    apply ownsCut_register_other _ _ _ (by simp)
    apply ownsCut_register_other _ _ _ (by simp)
    apply ownsCut_register_other _ _ _ (by simp)
    exact ownsCut_register_self _ _
  have h3 : ownsCut (TrackCut.make g false r)
      ⟨"fid", g.fiducial false, 30, "tracks in fiducial area"⟩ := by
    unfold TrackCut.make
    apply ownsCut_register_other _ _ _ (by simp)
    apply ownsCut_register_other _ _ _ (by simp)
    exact ownsCut_register_self _ _
  have h4 : ownsCut (TrackCut.make g false r)
      ⟨"tstart", g.start_time false, 40, "exclude first events"⟩ := by
    unfold TrackCut.make
    apply ownsCut_register_other _ _ _ (by simp)
    exact ownsCut_register_self _ _
  have h5 : ownsCut (TrackCut.make g false r)
      ⟨"chi2", g.chi2 false, 50, "small chi2"⟩ := by
    unfold TrackCut.make
    exact ownsCut_register_self _ _
  show register (register (register (register (register (TrackCut.make g false r)
    ⟨"tp", g.trigger_phase false, 10, "trigger phase"⟩)
    ⟨"res", g.trk_residual false, 20, "tracks with a small residual in the REF"⟩)
    ⟨"fid", g.fiducial false, 30, "tracks in fiducial area"⟩)
    ⟨"tstart", g.start_time false, 40, "exclude first events"⟩)
    ⟨"chi2", g.chi2 false, 50, "small chi2"⟩ = TrackCut.make g false r
  rw [register_owned_eq _ _ h1, register_owned_eq _ _ h2, register_owned_eq _ _ h3,
    register_owned_eq _ _ h4, register_owned_eq _ _ h5]
